import Mathlib

/-!
# node-spellchecker: the binding layer of `src/main.cc`

A shallow embedding of the `Spellchecker` wrapper class: the seven method
handlers registered by `Spellchecker::Init`, over an abstract
`SpellcheckerImplementation` (declared in `spellchecker.h`, which is not part
of the sources at hand, hence taken as a parameter) and an abstract V8 string
conversion layer.

Every handler is a function of the argument vector `info` and of the wrapped
object `that`; it returns the value or the thrown error, the object after the
call and the list of engine calls it made, in order.
-/

namespace NodeSpellchecker

/-! ## Values of the host runtime -/

/-- JavaScript values as seen by the handlers. A string is its sequence of
UTF-16 code units; a `node::Buffer` is an object identity with its bytes;
`arrayBufferView` is any other view on an ArrayBuffer (a plain `Uint8Array`
or other typed array, a `DataView`) with the bytes it covers. -/
inductive Value where
  | undefined
  | boolean (b : Bool)
  | integer (n : Int)
  | string (units : List Nat)
  | buffer (handle : Nat) (bytes : List Nat)
  | arrayBufferView (handle : Nat) (bytes : List Nat)
  | array (elems : List Value)
  | object (props : List (String × Value))

/-- The test `v->IsString()`. -/
def Value.IsString : Value → Bool
  | .string _ => true
  | _ => false

/-- The call `str->Length()`: number of UTF-16 code units. -/
def Value.Length : Value → Nat
  | .string units => units.length
  | _ => 0

/-- The code units of a string value. -/
def Value.units : Value → List Nat
  | .string units => units
  | _ => []

/-- Whether the value is a `Buffer` object. -/
def Value.IsBuffer : Value → Bool
  | .buffer _ _ => true
  | _ => false

/-- The test `v->IsArrayBufferView()`. -/
def Value.IsArrayBufferView : Value → Bool
  | .buffer _ _ => true
  | .arrayBufferView _ _ => true
  | _ => false

/-- The test `node::Buffer::HasInstance(v)`, which Node defines as
`v->IsArrayBufferView()`: it holds of a Buffer and of every other view. -/
def HasInstance (v : Value) : Bool :=
  v.IsArrayBufferView

/-- The call `node::Buffer::Data(v)`: the bytes the view covers. -/
def BufferData : Value → List Nat
  | .buffer _ bytes => bytes
  | .arrayBufferView _ bytes => bytes
  | _ => []

/-- The call `node::Buffer::Length(v)`: the byte length of the view. -/
def BufferLength : Value → Nat
  | .buffer _ bytes => bytes.length
  | .arrayBufferView _ bytes => bytes.length
  | _ => 0

/-- The access `info[i]`: the i-th argument, `undefined` past the end. -/
def arg (info : List Value) (i : Nat) : Value :=
  info.getD i Value.undefined

/-- String conversions supplied by V8: `String::Utf8Value` (any value to a
`std::string`) and `Nan::New<String>(data, size)` (a `std::string` to the
code units of a new JavaScript string). -/
structure V8 where
  Utf8Value : Value → String
  NewString : String → List Nat

/-- Property store of an object or template: `Nan::Set` / `Nan::SetMethod`
with a string key replaces the value of an existing key and appends a new
key otherwise. -/
def setProp {α : Type} : List (String × α) → String → α → List (String × α)
  | [], key, v => [(key, v)]
  | (k, w) :: ps, key, v =>
      if k = key then (key, v) :: ps else (k, w) :: setProp ps key v

/-- The call `Nan::Set(array, index, v)`: writes slot `index`, growing the
array with `undefined` slots when the index is past the end. -/
def arraySet (a : List Value) (index : Nat) (v : Value) : List Value :=
  if index < a.length then a.set index v
  else a ++ List.replicate (index - a.length) Value.undefined ++ [v]

/-- The call `Nan::New<Array>(n)`: an array of length `n` whose slots read
as `undefined`. -/
def newArray (n : Nat) : List Value :=
  List.replicate n Value.undefined

/-- Copies code units into a buffer from position `i` on. -/
def copyUnits : List Nat → Nat → List Nat → List Nat
  | [], _, buffer => buffer
  | c :: cs, i, buffer => copyUnits cs (i + 1) (buffer.set i c)

/-- The call `str->Write(isolate, buffer)` with its default arguments
(start 0, whole string, no options): copies every code unit of the string
and then stores the terminating NUL. -/
def Write (str : List Nat) (buffer : List Nat) : List Nat :=
  (copyUnits str 0 buffer).set str.length 0

/-! ## The engine interface (`spellchecker.h`) -/

/-- A misspelled range as the engine reports it (`size_t` offsets). -/
structure MisspelledRange where
  start : Nat
  end_ : Nat
  deriving DecidableEq, Repr

/-- The abstract class `SpellcheckerImplementation`: every virtual method is
non-const, so each one may change the engine state `σ`. -/
structure SpellcheckerImplementation (σ : Type) where
  SetDictionary : σ → String → Bool × σ
  SetDictionaryToContents : σ → List Nat → Nat → Bool × σ
  GetAvailableDictionaries : σ → String → List String × σ
  GetCorrectionsForMisspelling : σ → String → List String × σ
  IsMisspelled : σ → String → Bool × σ
  CheckSpelling : σ → List Nat → Nat → List MisspelledRange × σ
  Add : σ → String → σ
  Remove : σ → String → σ

/-- One call made on the engine, with its arguments. -/
inductive EngineCall where
  | SetDictionary (language : String)
  | SetDictionaryToContents (data : List Nat) (length : Nat)
  | GetAvailableDictionaries (path : String)
  | GetCorrectionsForMisspelling (word : String)
  | IsMisspelled (word : String)
  | CheckSpelling (text : List Nat) (length : Nat)
  | Add (word : String)
  | Remove (word : String)
  deriving DecidableEq, Repr

/-! ## The wrapper object -/

/-- The class `Spellchecker`: the engine `impl` and the persistent handle
`dictData` that pins a contents buffer (`none` while the handle is empty). -/
structure Spellchecker (σ : Type) where
  impl : σ
  dictData : Option Value

/-- What a handler does: the returned value or the thrown error message, the
object after the call, and the engine calls made. -/
structure Outcome (σ : Type) where
  ret : Except String Value
  that : Spellchecker σ
  calls : List EngineCall

/-- The statement `return Nan::ThrowError(msg)`. -/
def ThrowError {σ : Type} (msg : String) (that : Spellchecker σ) : Outcome σ :=
  ⟨.error msg, that, []⟩

/-- The constructor `Spellchecker()` behind `New`: a fresh engine and an
empty persistent handle. -/
def New {σ : Type} (CreateSpellchecker : σ) : Spellchecker σ :=
  ⟨CreateSpellchecker, none⟩

/-- The handler `Spellchecker::SetDictionary`. -/
def SetDictionary {σ : Type} (E : SpellcheckerImplementation σ) (v8 : V8)
    (info : List Value) (that : Spellchecker σ) : Outcome σ :=
  if info.length < 1 then ThrowError "Bad argument" that
  else if info.length > 1 && !HasInstance (arg info 1) then
    ThrowError "SetDictionary 2nd argument must be a Buffer" that
  else
    let has_contents : Bool := decide (info.length > 1)
    -- the persistent handle is reset before the load is attempted
    let that : Spellchecker σ :=
      if info.length > 1 then { that with dictData := some (arg info 1) } else that
    let language := v8.Utf8Value (arg info 0)
    if has_contents then
      let r := E.SetDictionaryToContents that.impl
        (BufferData (arg info 1)) (BufferLength (arg info 1))
      ⟨.ok (.boolean r.1), { that with impl := r.2 },
        [.SetDictionaryToContents (BufferData (arg info 1)) (BufferLength (arg info 1))]⟩
    else
      let r := E.SetDictionary that.impl language
      ⟨.ok (.boolean r.1), { that with impl := r.2 }, [.SetDictionary language]⟩

/-- The handler `Spellchecker::IsMisspelled`. -/
def IsMisspelled {σ : Type} (E : SpellcheckerImplementation σ) (v8 : V8)
    (info : List Value) (that : Spellchecker σ) : Outcome σ :=
  if info.length < 1 then ThrowError "Bad argument" that
  else
    let word := v8.Utf8Value (arg info 0)
    let r := E.IsMisspelled that.impl word
    ⟨.ok (.boolean r.1), { that with impl := r.2 }, [.IsMisspelled word]⟩

/-- The conversion `uint32_t x = size_t value`. -/
def toUint32 (n : Nat) : Nat := n % 2 ^ 32

/-- The object built for one range in the loop of `CheckSpelling`: a new
object with `start` and then `end` set to `Nan::New<Integer>` of the
`uint32_t` offsets. -/
def rangeObject (start end_ : Nat) : Value :=
  .object (setProp (setProp [] "start" (.integer (Int.ofNat start)))
    "end" (.integer (Int.ofNat end_)))

/-- The loop of `CheckSpelling` over the engine's ranges; `index` is
`iter - misspelled_ranges.begin()`. -/
def setRanges : List MisspelledRange → Nat → List Value → List Value
  | [], _, result => result
  | r :: rest, index, result =>
      let start := toUint32 r.start
      let end_ := toUint32 r.end_
      setRanges rest (index + 1) (arraySet result index (rangeObject start end_))

/-- The handler `Spellchecker::CheckSpelling`. -/
def CheckSpelling {σ : Type} (E : SpellcheckerImplementation σ)
    (info : List Value) (that : Spellchecker σ) : Outcome σ :=
  if info.length < 1 then ThrowError "Bad argument" that
  else
    let str := arg info 0
    if !str.IsString then ThrowError "Bad argument" that
    else
      let result : List Value := []
      if str.Length == 0 then ⟨.ok (.array result), that, []⟩
      else
        let text := Write str.units (List.replicate (str.Length + 1) 0)
        let r := E.CheckSpelling that.impl text text.length
        ⟨.ok (.array (setRanges r.1 0 result)), { that with impl := r.2 },
          [.CheckSpelling text text.length]⟩

/-- The handler `Spellchecker::Add`. -/
def Add {σ : Type} (E : SpellcheckerImplementation σ) (v8 : V8)
    (info : List Value) (that : Spellchecker σ) : Outcome σ :=
  if info.length < 1 then ThrowError "Bad argument" that
  else
    let word := v8.Utf8Value (arg info 0)
    ⟨.ok .undefined, { that with impl := E.Add that.impl word }, [.Add word]⟩

/-- The handler `Spellchecker::Remove`. -/
def Remove {σ : Type} (E : SpellcheckerImplementation σ) (v8 : V8)
    (info : List Value) (that : Spellchecker σ) : Outcome σ :=
  if info.length < 1 then ThrowError "Bad argument" that
  else
    let word := v8.Utf8Value (arg info 0)
    ⟨.ok .undefined, { that with impl := E.Remove that.impl word }, [.Remove word]⟩

/-- The loop `for (size_t i = 0; i < n; ++i) body`, with `remaining = n - i`
iterations left. -/
def forLoop {α : Type} (body : Nat → α → α) : Nat → Nat → α → α
  | 0, _, acc => acc
  | remaining + 1, i, acc => forLoop body remaining (i + 1) (body i acc)

/-- The loop shared by `GetAvailableDictionaries` and
`GetCorrectionsForMisspelling`: slot `i` of a preallocated array receives the
JavaScript string made from `strings[i]`. -/
def setStrings (v8 : V8) (strings : List String) : List Value :=
  forLoop (fun i result => arraySet result i (.string (v8.NewString (strings.getD i ""))))
    strings.length 0 (newArray strings.length)

/-- The handler `Spellchecker::GetAvailableDictionaries`. The block under
`if (info.Length() > 0)` declares a new local `path`, which goes out of
scope at its closing brace; the outer `path` is never assigned. -/
def GetAvailableDictionaries {σ : Type} (E : SpellcheckerImplementation σ) (v8 : V8)
    (info : List Value) (that : Spellchecker σ) : Outcome σ :=
  let path : String := "."
  let _block : Unit :=
    if info.length > 0 then
      let path : String := v8.Utf8Value (arg info 0)
      let _ := path
      ()
    else ()
  let r := E.GetAvailableDictionaries that.impl path
  ⟨.ok (.array (setStrings v8 r.1)), { that with impl := r.2 },
    [.GetAvailableDictionaries path]⟩

/-- The handler `Spellchecker::GetCorrectionsForMisspelling`. -/
def GetCorrectionsForMisspelling {σ : Type} (E : SpellcheckerImplementation σ) (v8 : V8)
    (info : List Value) (that : Spellchecker σ) : Outcome σ :=
  if info.length < 1 then ThrowError "Bad argument" that
  else
    let word := v8.Utf8Value (arg info 0)
    let r := E.GetCorrectionsForMisspelling that.impl word
    ⟨.ok (.array (setStrings v8 r.1)), { that with impl := r.2 },
      [.GetCorrectionsForMisspelling word]⟩

/-! ## Method registration -/

/-- The static handlers of the class. -/
inductive Handler where
  | New
  | SetDictionary
  | IsMisspelled
  | CheckSpelling
  | Add
  | Remove
  | GetAvailableDictionaries
  | GetCorrectionsForMisspelling
  deriving DecidableEq, Repr

/-- The call `Nan::SetMethod(tpl->InstanceTemplate(), name, handler)`. -/
def SetMethod (tpl : List (String × Handler)) (name : String) (h : Handler) :
    List (String × Handler) :=
  setProp tpl name h

/-- The instance template built by `Spellchecker::Init`: the seven
`Nan::SetMethod` calls in source order on an empty template. -/
def Init : List (String × Handler) :=
  let tpl : List (String × Handler) := []
  let tpl := SetMethod tpl "setDictionary" Handler.SetDictionary
  let tpl := SetMethod tpl "getAvailableDictionaries" Handler.GetAvailableDictionaries
  let tpl := SetMethod tpl "getCorrectionsForMisspelling" Handler.GetCorrectionsForMisspelling
  let tpl := SetMethod tpl "isMisspelled" Handler.IsMisspelled
  let tpl := SetMethod tpl "checkSpelling" Handler.CheckSpelling
  let tpl := SetMethod tpl "add" Handler.Add
  let tpl := SetMethod tpl "remove" Handler.Remove
  tpl

/-- Runs a handler. -/
def Handler.run {σ : Type} (E : SpellcheckerImplementation σ) (v8 : V8) :
    Handler → List Value → Spellchecker σ → Outcome σ
  | .New => fun _ that => ⟨.ok .undefined, that, []⟩
  | .SetDictionary => NodeSpellchecker.SetDictionary E v8
  | .IsMisspelled => NodeSpellchecker.IsMisspelled E v8
  | .CheckSpelling => NodeSpellchecker.CheckSpelling E
  | .Add => NodeSpellchecker.Add E v8
  | .Remove => NodeSpellchecker.Remove E v8
  | .GetAvailableDictionaries => NodeSpellchecker.GetAvailableDictionaries E v8
  | .GetCorrectionsForMisspelling => NodeSpellchecker.GetCorrectionsForMisspelling E v8

/-- A method call `object.name(info...)` from JavaScript: dispatch through
the instance template; an unregistered name is a `TypeError`. -/
def callMethod {σ : Type} (E : SpellcheckerImplementation σ) (v8 : V8)
    (name : String) (info : List Value) (that : Spellchecker σ) : Outcome σ :=
  match Init.lookup name with
  | some h => h.run E v8 info that
  | none => ThrowError "TypeError: not a function" that

/-! ## A concrete engine and string layer, for evaluating the handlers -/

/-- String conversions restricted to what the examples need: a string's code
units are read as characters, and back. -/
def demoV8 : V8 where
  Utf8Value v := String.mk (v.units.map Char.ofNat)
  NewString s := s.toList.map Char.toNat

/-- A small engine whose state is its word list. It knows the language
`en_US`, accepts any non-empty contents, leaves its state alone when a load
fails, and reports the first code unit and the rest of the buffer it is
handed as two misspelled ranges. -/
def demoEngine : SpellcheckerImplementation (List String) where
  SetDictionary s language :=
    if language = "en_US" then (true, ["hello", "world"]) else (false, s)
  SetDictionaryToContents s _ length :=
    if length = 0 then (false, s) else (true, ["contents"])
  GetAvailableDictionaries s path :=
    (if path = "." then ["en_US"] else if path = "/dicts" then ["de_DE", "fr_FR"] else [], s)
  GetCorrectionsForMisspelling s word :=
    (if word = "wrold" then ["world", "wold"] else [], s)
  IsMisspelled s word := (!s.contains word, s)
  CheckSpelling s _ length :=
    (if length = 0 then [] else if length = 1 then [⟨0, 1⟩] else [⟨0, 1⟩, ⟨1, length⟩], s)
  Add s word := word :: s
  Remove s word := s.erase word

/-- The code units of an ASCII string literal. -/
def unitsOf (s : String) : List Nat :=
  s.toList.map Char.toNat

/-- A wrapper after one successful `setDictionary("en_US", buffer)` on a
fresh object: the engine holds the loaded contents and buffer 1 is pinned. -/
def demoThat : Spellchecker (List String) :=
  (SetDictionary demoEngine demoV8
    [.string (unitsOf "en_US"), .buffer 1 [1, 2, 3]] (New [])).that

/-! ## Ranges as the caller reads them -/

/-- Reads property `key` of an object, `undefined` when absent. -/
def Value.getProp (key : String) : Value → Value
  | .object props => (props.lookup key).getD .undefined
  | _ => .undefined

/-- The integer held by a value, `0` for other values. -/
def Value.asInteger : Value → Int
  | .integer n => n
  | _ => 0

/-- The `(start, end)` pairs a caller reads off a returned array. -/
def returnedRanges : Except String Value → List (Int × Int)
  | .ok (.array elems) =>
      elems.map (fun o => ((o.getProp "start").asInteger, (o.getProp "end").asInteger))
  | _ => []

/-- Ranges are proper, ascending, pairwise disjoint and end at or before
`len`. -/
def EngineRangesWithin (rs : List MisspelledRange) (len : Nat) : Prop :=
  rs.Pairwise (fun a b => a.end_ ≤ b.start) ∧ ∀ r ∈ rs, r.start < r.end_ ∧ r.end_ ≤ len

/-- Returned ranges are pairwise disjoint, strictly ascending by start, and
each satisfies `0 ≤ start < end ≤ len`. -/
def ReturnedRangesWithin (rs : List (Int × Int)) (len : Nat) : Prop :=
  rs.Pairwise (fun a b => a.2 ≤ b.1 ∧ a.1 < b.1) ∧
    ∀ r ∈ rs, 0 ≤ r.1 ∧ r.1 < r.2 ∧ r.2 ≤ (len : Int)

/-! ## Loops and buffers -/

theorem copyUnits_append (cs pre old post : List Nat) (h : old.length = cs.length) :
    copyUnits cs pre.length (pre ++ old ++ post) = pre ++ cs ++ post := by
  induction cs generalizing pre old with
  | nil =>
    have : old = [] := List.length_eq_zero.mp (by simpa using h)
    simp [copyUnits, this]
  | cons c cs ih =>
    cases old with
    | nil => simp at h
    | cons o old =>
      have hlen : (pre ++ [c]).length = pre.length + 1 := by simp
      have hs : (pre ++ o :: old ++ post).set pre.length c = (pre ++ [c]) ++ old ++ post := by
        simp [List.append_assoc]
      rw [copyUnits, hs, ← hlen, ih (pre ++ [c]) old (by simpa using h)]
      simp

theorem Write_replicate (str : List Nat) :
    Write str (List.replicate (str.length + 1) 0) = str ++ [0] := by
  have h := copyUnits_append str [] (List.replicate str.length 0) [0] (by simp)
  have hr : List.replicate (str.length + 1) 0 = [] ++ List.replicate str.length 0 ++ [0] := by
    simp [List.replicate_succ']
  unfold Write
  rw [hr]
  simp only [List.length_nil] at h
  rw [h]
  simp

theorem arraySet_length (a : List Value) (v : Value) :
    arraySet a a.length v = a ++ [v] := by
  simp [arraySet]

theorem setRanges_eq (rs : List MisspelledRange) (result : List Value) :
    setRanges rs result.length result =
      result ++ rs.map (fun r => rangeObject (toUint32 r.start) (toUint32 r.end_)) := by
  induction rs generalizing result with
  | nil => simp [setRanges]
  | cons r rs ih =>
    have hlen : (result ++ [rangeObject (toUint32 r.start) (toUint32 r.end_)]).length
        = result.length + 1 := by simp
    rw [setRanges, arraySet_length, ← hlen, ih]
    simp

theorem forLoop_strings (f : String → Value) (xs pre rest : List String) (h : xs = pre ++ rest) :
    forLoop (fun i result => arraySet result i (f (xs.getD i ""))) rest.length pre.length
        (pre.map f ++ List.replicate rest.length Value.undefined) = xs.map f := by
  induction rest generalizing pre with
  | nil => simp [forLoop, h]
  | cons x rest ih =>
    have hget : xs.getD pre.length "" = x := by
      rw [h, List.getD_eq_getElem?_getD, List.getElem?_append_right (Nat.le_refl _)]
      simp
    have hset : arraySet (pre.map f ++ List.replicate (x :: rest).length Value.undefined)
        pre.length (f x) = (pre ++ [x]).map f ++ List.replicate rest.length Value.undefined := by
      simp [arraySet, List.replicate_succ]
    have hlen : (pre ++ [x]).length = pre.length + 1 := by simp
    simp only [List.length_cons, forLoop]
    simp only [List.length_cons] at hset
    rw [hget, hset, ← hlen]
    exact ih (pre ++ [x]) (by simp [h])

theorem setStrings_eq (v8 : V8) (strings : List String) :
    setStrings v8 strings = strings.map (fun s => Value.string (v8.NewString s)) := by
  have h := forLoop_strings (fun s => Value.string (v8.NewString s)) strings [] strings rfl
  simpa [setStrings, newArray] using h

/-! ## checkSpelling -/

theorem rangeObject_eq (start end_ : Nat) :
    rangeObject start end_ =
      .object [("start", .integer (Int.ofNat start)), ("end", .integer (Int.ofNat end_))] := by
  simp [rangeObject, setProp]

/-- On a non-empty string the handler makes one engine call, on the written
buffer, and returns one object per engine range. -/
theorem CheckSpelling_nonempty {σ : Type} (E : SpellcheckerImplementation σ)
    (that : Spellchecker σ) (text : List Nat) (rest : List Value) (h : text ≠ []) :
    CheckSpelling E (.string text :: rest) that =
      ⟨.ok (.array ((E.CheckSpelling that.impl (text ++ [0]) (text.length + 1)).1.map
          (fun r => rangeObject (toUint32 r.start) (toUint32 r.end_)))),
        { that with impl := (E.CheckSpelling that.impl (text ++ [0]) (text.length + 1)).2 },
        [.CheckSpelling (text ++ [0]) (text.length + 1)]⟩ := by
  have hlen : text.length ≠ 0 := fun h0 => h (List.length_eq_zero.mp h0)
  have hset := fun rs => setRanges_eq rs []
  simp only [List.length_nil, List.nil_append] at hset
  simp [CheckSpelling, arg, Value.IsString, Value.Length, Value.units, Write_replicate,
    hlen, hset]

/-- The fast path: an empty string returns before the engine is reached. -/
theorem CheckSpelling_nil {σ : Type} (E : SpellcheckerImplementation σ)
    (that : Spellchecker σ) (rest : List Value) :
    CheckSpelling E (.string [] :: rest) that = ⟨.ok (.array []), that, []⟩ := by
  simp [CheckSpelling, arg, Value.IsString, Value.Length]

theorem returnedRanges_map (rs : List MisspelledRange) :
    returnedRanges (.ok (.array (rs.map
        (fun r => rangeObject (toUint32 r.start) (toUint32 r.end_))))) =
      rs.map (fun r => (Int.ofNat (toUint32 r.start), Int.ofNat (toUint32 r.end_))) := by
  simp [returnedRanges, rangeObject_eq, Value.getProp, Value.asInteger, List.lookup]

/-- C1: for a non-empty text, `checkSpelling` returns exactly one object per
engine range, in the engine's order, holding the engine's offsets reduced to
`uint32_t`; when every offset is below 2^32 the objects hold the engine's
offsets themselves. -/
theorem CheckSpelling_returns_engine_ranges {σ : Type} (E : SpellcheckerImplementation σ)
    (that : Spellchecker σ) (text : List Nat) (rest : List Value) (h : text ≠ []) :
    (CheckSpelling E (.string text :: rest) that).ret =
        .ok (.array ((E.CheckSpelling that.impl (text ++ [0]) (text.length + 1)).1.map
          (fun r => Value.object [("start", .integer (Int.ofNat (r.start % 2 ^ 32))),
            ("end", .integer (Int.ofNat (r.end_ % 2 ^ 32)))]))) ∧
      ((∀ r ∈ (E.CheckSpelling that.impl (text ++ [0]) (text.length + 1)).1,
          r.start < 2 ^ 32 ∧ r.end_ < 2 ^ 32) →
        (CheckSpelling E (.string text :: rest) that).ret =
          .ok (.array ((E.CheckSpelling that.impl (text ++ [0]) (text.length + 1)).1.map
            (fun r => Value.object [("start", .integer (Int.ofNat r.start)),
              ("end", .integer (Int.ofNat r.end_))])))) := by
  rw [CheckSpelling_nonempty E that text rest h]
  refine ⟨by simp [rangeObject_eq, toUint32], fun h32 => ?_⟩
  simp only [rangeObject_eq, toUint32]
  congr 2
  apply List.map_congr_left
  intro r hr
  rw [Nat.mod_eq_of_lt (h32 r hr).1, Nat.mod_eq_of_lt (h32 r hr).2]

theorem CheckSpelling_returns_engine_ranges_witness :
    unitsOf "hi" ≠ [] ∧
      (CheckSpelling demoEngine [.string (unitsOf "hi")] demoThat).ret =
        .ok (.array [.object [("start", .integer 0), ("end", .integer 1)],
          .object [("start", .integer 1), ("end", .integer 3)]]) :=
  ⟨by decide,
    (CheckSpelling_returns_engine_ranges demoEngine demoThat (unitsOf "hi") [] (by decide)).2
      (by decide)⟩

/-- C10: for a non-empty text of n code units the engine is handed the n
code units followed by one 0, with length n + 1. -/
theorem CheckSpelling_hands_terminated_buffer {σ : Type} (E : SpellcheckerImplementation σ)
    (that : Spellchecker σ) (text : List Nat) (rest : List Value) (h : text ≠ []) :
    (CheckSpelling E (.string text :: rest) that).calls =
      [.CheckSpelling (text ++ [0]) (text.length + 1)] := by
  rw [CheckSpelling_nonempty E that text rest h]

theorem CheckSpelling_hands_terminated_buffer_witness :
    unitsOf "hi" ≠ [] ∧
      (CheckSpelling demoEngine [.string (unitsOf "hi")] demoThat).calls =
        [.CheckSpelling [104, 105, 0] 3] :=
  ⟨by decide,
    CheckSpelling_hands_terminated_buffer demoEngine demoThat (unitsOf "hi") [] (by decide)⟩

/-- C7: for the empty string `checkSpelling` returns an empty array, makes no
engine call and leaves the object as it was, whatever the engine and its
state. -/
theorem CheckSpelling_empty_text {σ : Type} (E : SpellcheckerImplementation σ)
    (that : Spellchecker σ) (rest : List Value) :
    CheckSpelling E (.string [] :: rest) that = ⟨.ok (.array []), that, []⟩ :=
  CheckSpelling_nil E that rest

/-- C2, as stated, fails: the demo engine keeps every range inside the
(buffer, length) it is handed, yet for the two-unit text "hi" the second
returned range ends at 3, past the end of the text. -/
theorem CheckSpelling_range_past_text :
    (∀ (s : List String) (buffer : List Nat) (length : Nat),
        EngineRangesWithin (demoEngine.CheckSpelling s buffer length).1 length) ∧
      (unitsOf "hi").length = 2 ∧
      returnedRanges (CheckSpelling demoEngine [.string (unitsOf "hi")] demoThat).ret =
        [(0, 1), (1, 3)] ∧
      ¬ ReturnedRangesWithin
        (returnedRanges (CheckSpelling demoEngine [.string (unitsOf "hi")] demoThat).ret) 2 := by
  refine ⟨?_, by decide, by decide, ?_⟩
  · intro s buffer length
    unfold EngineRangesWithin
    by_cases h0 : length = 0
    · simp [demoEngine, h0]
    · by_cases h1 : length = 1
      · simp [demoEngine, h1]
      · simp [demoEngine, h0, h1]
        omega
  · have hr : returnedRanges
        (CheckSpelling demoEngine [.string (unitsOf "hi")] demoThat).ret = [(0, 1), (1, 3)] := by
      decide
    rw [hr]
    intro hw
    have := (hw.2 (1, 3) (by simp)).2.2
    omega

/-- C2, amended: for every text shorter than 2^32 - 1 code units, if the
ranges the engine returns for the (buffer, length) it is handed are proper,
ascending, disjoint and within that length, then the returned ranges are
disjoint, strictly ascending by start, and each satisfies
`0 ≤ start < end ≤ len(T) + 1`. -/
theorem CheckSpelling_ranges_within_buffer {σ : Type} (E : SpellcheckerImplementation σ)
    (that : Spellchecker σ) (text : List Nat) (rest : List Value)
    (hlen : text.length + 1 < 2 ^ 32)
    (hE : ∀ buffer length,
      (CheckSpelling E (.string text :: rest) that).calls = [.CheckSpelling buffer length] →
        EngineRangesWithin (E.CheckSpelling that.impl buffer length).1 length) :
    ReturnedRangesWithin (returnedRanges (CheckSpelling E (.string text :: rest) that).ret)
      (text.length + 1) := by
  by_cases h : text = []
  · subst h
    rw [CheckSpelling_nil]
    simp [ReturnedRangesWithin, returnedRanges]
  · have hcall := CheckSpelling_nonempty E that text rest h
    have hR := hE (text ++ [0]) (text.length + 1) (by rw [hcall])
    rw [hcall]
    simp only [returnedRanges_map]
    obtain ⟨hp, hb⟩ := hR
    have hmod : ∀ r ∈ (E.CheckSpelling that.impl (text ++ [0]) (text.length + 1)).1,
        toUint32 r.start = r.start ∧ toUint32 r.end_ = r.end_ := by
      intro r hr
      have := hb r hr
      unfold toUint32
      constructor <;> apply Nat.mod_eq_of_lt <;> omega
    refine ⟨?_, ?_⟩
    · rw [List.pairwise_map]
      refine List.Pairwise.imp_of_mem ?_ hp
      intro a b ha hb2 hab
      have h1 := hmod a ha
      have h2 := hmod b hb2
      have h3 := hb a ha
      simp only [h1.1, h1.2, h2.1, Int.ofNat_eq_coe]
      omega
    · intro p hp2
      rw [List.mem_map] at hp2
      obtain ⟨r, hr, rfl⟩ := hp2
      have h1 := hmod r hr
      have h3 := hb r hr
      simp only [h1.1, h1.2, Int.ofNat_eq_coe]
      omega

theorem CheckSpelling_ranges_within_buffer_witness :
    (unitsOf "hi").length + 1 < 2 ^ 32 ∧
      ReturnedRangesWithin
        (returnedRanges (CheckSpelling demoEngine [.string (unitsOf "hi")] demoThat).ret) 3 :=
  ⟨by decide,
    CheckSpelling_ranges_within_buffer demoEngine demoThat (unitsOf "hi") [] (by decide)
      (by
        intro buffer length hcall
        have hc : (CheckSpelling demoEngine [.string (unitsOf "hi")] demoThat).calls =
            [.CheckSpelling [104, 105, 0] 3] := by decide
        rw [hc] at hcall
        simp only [List.cons.injEq, EngineCall.CheckSpelling.injEq, and_true] at hcall
        obtain ⟨rfl, rfl⟩ := hcall
        simp [EngineRangesWithin, demoEngine])⟩

/-! ## setDictionary -/

/-- With a Buffer as second argument the handler pins that buffer, loads from
its bytes, and returns the engine's answer. -/
theorem SetDictionary_contents {σ : Type} (E : SpellcheckerImplementation σ) (v8 : V8)
    (that : Spellchecker σ) (language : Value) (handle : Nat) (bytes : List Nat)
    (rest : List Value) :
    SetDictionary E v8 (language :: .buffer handle bytes :: rest) that =
      ⟨.ok (.boolean (E.SetDictionaryToContents that.impl bytes bytes.length).1),
        ⟨(E.SetDictionaryToContents that.impl bytes bytes.length).2,
          some (.buffer handle bytes)⟩,
        [.SetDictionaryToContents bytes bytes.length]⟩ := by
  simp [SetDictionary, arg, HasInstance, Value.IsArrayBufferView, BufferData, BufferLength]

/-- With the language alone the handler loads by name, leaves the pinned
buffer alone, and returns the engine's answer. -/
theorem SetDictionary_language {σ : Type} (E : SpellcheckerImplementation σ) (v8 : V8)
    (that : Spellchecker σ) (language : Value) :
    SetDictionary E v8 [language] that =
      ⟨.ok (.boolean (E.SetDictionary that.impl (v8.Utf8Value language)).1),
        ⟨(E.SetDictionary that.impl (v8.Utf8Value language)).2, that.dictData⟩,
        [.SetDictionary (v8.Utf8Value language)]⟩ := by
  simp [SetDictionary, arg]

/-- C3: `setDictionary` with a Buffer second argument makes exactly one engine
call, `SetDictionaryToContents` on the buffer's bytes and length; with the
language alone it makes exactly one engine call, `SetDictionary` on that
language; either way it returns the engine's boolean, true or false, as a
value and throws nothing. -/
theorem SetDictionary_selects_load {σ : Type} (E : SpellcheckerImplementation σ) (v8 : V8)
    (that : Spellchecker σ) (language : Value) (handle : Nat) (bytes : List Nat)
    (rest : List Value) :
    ((SetDictionary E v8 (language :: .buffer handle bytes :: rest) that).calls =
        [.SetDictionaryToContents bytes bytes.length] ∧
      (SetDictionary E v8 (language :: .buffer handle bytes :: rest) that).ret =
        .ok (.boolean (E.SetDictionaryToContents that.impl bytes bytes.length).1)) ∧
    ((SetDictionary E v8 [language] that).calls = [.SetDictionary (v8.Utf8Value language)] ∧
      (SetDictionary E v8 [language] that).ret =
        .ok (.boolean (E.SetDictionary that.impl (v8.Utf8Value language)).1)) := by
  rw [SetDictionary_contents, SetDictionary_language]
  exact ⟨⟨rfl, rfl⟩, rfl, rfl⟩

/-- A load by name that the engine refuses without touching its own state
leaves the whole object unchanged. -/
theorem SetDictionary_language_failed {σ : Type} (E : SpellcheckerImplementation σ) (v8 : V8)
    (that : Spellchecker σ) (language : Value)
    (hE : E.SetDictionary that.impl (v8.Utf8Value language) = (false, that.impl)) :
    (SetDictionary E v8 [language] that).that = that := by
  rw [SetDictionary_language, hE]

/-- C4, failing input: on an object that pins buffer 1 for its loaded
dictionary, `setDictionary("xx", <empty buffer 2>)` returns false and the
engine keeps its state, yet the object now pins buffer 2 and no longer
buffer 1. -/
theorem SetDictionary_failed_load_repins :
    demoThat.impl = ["contents"] ∧
    demoThat.dictData = some (.buffer 1 [1, 2, 3]) ∧
    (SetDictionary demoEngine demoV8 [.string (unitsOf "xx"), .buffer 2 []] demoThat).ret =
      .ok (.boolean false) ∧
    (SetDictionary demoEngine demoV8 [.string (unitsOf "xx"), .buffer 2 []] demoThat).that.impl =
      demoThat.impl ∧
    (SetDictionary demoEngine demoV8 [.string (unitsOf "xx"), .buffer 2 []] demoThat).that.dictData =
      some (.buffer 2 []) ∧
    (SetDictionary demoEngine demoV8 [.string (unitsOf "xx"), .buffer 2 []] demoThat).that ≠
      demoThat := by
  refine ⟨rfl, rfl, rfl, rfl, rfl, ?_⟩
  intro h
  have hd := congrArg Spellchecker.dictData h
  have h1 : (SetDictionary demoEngine demoV8 [.string (unitsOf "xx"), .buffer 2 []]
      demoThat).that.dictData = some (.buffer 2 []) := rfl
  have h2 : demoThat.dictData = some (.buffer 1 [1, 2, 3]) := rfl
  rw [h1, h2] at hd
  simp at hd

/-! ## getAvailableDictionaries -/

/-- Whatever the arguments, the catalog is queried with the path ".". -/
theorem GetAvailableDictionaries_eq {σ : Type} (E : SpellcheckerImplementation σ) (v8 : V8)
    (that : Spellchecker σ) (info : List Value) :
    GetAvailableDictionaries E v8 info that =
      ⟨.ok (.array ((E.GetAvailableDictionaries that.impl ".").1.map
          (fun s => Value.string (v8.NewString s)))),
        { that with impl := (E.GetAvailableDictionaries that.impl ".").2 },
        [.GetAvailableDictionaries "."]⟩ := by
  simp [GetAvailableDictionaries, setStrings_eq]

/-- C5, failing input: `getAvailableDictionaries("/dicts")` queries the
catalog with "." and returns the catalog's list for ".", not the list for
"/dicts". -/
theorem GetAvailableDictionaries_ignores_path :
    demoV8.Utf8Value (.string (unitsOf "/dicts")) = "/dicts" ∧
    (GetAvailableDictionaries demoEngine demoV8 [.string (unitsOf "/dicts")] demoThat).calls =
      [.GetAvailableDictionaries "."] ∧
    (GetAvailableDictionaries demoEngine demoV8 [.string (unitsOf "/dicts")] demoThat).ret =
      .ok (.array [.string (unitsOf "en_US")]) ∧
    (demoEngine.GetAvailableDictionaries demoThat.impl "/dicts").1 = ["de_DE", "fr_FR"] := by
  refine ⟨by decide, ?_, ?_, by decide⟩
  · rw [GetAvailableDictionaries_eq]
  · rw [GetAvailableDictionaries_eq]
    rfl

/-! ## Argument checks -/

/-- C6, as stated, fails: a `DataView` (or plain `Uint8Array`) is not a
Buffer, yet `setDictionary("en_US", view)` passes the
`node::Buffer::HasInstance` test, throws nothing, hands the view's bytes to
`SetDictionaryToContents` and pins the view in place of buffer 1. -/
theorem SetDictionary_accepts_other_view :
    (Value.arrayBufferView 7 [4, 5]).IsBuffer = false ∧
    (SetDictionary demoEngine demoV8
        [.string (unitsOf "en_US"), .arrayBufferView 7 [4, 5]] demoThat).ret =
      .ok (.boolean true) ∧
    (SetDictionary demoEngine demoV8
        [.string (unitsOf "en_US"), .arrayBufferView 7 [4, 5]] demoThat).calls =
      [.SetDictionaryToContents [4, 5] 2] ∧
    demoThat.dictData = some (.buffer 1 [1, 2, 3]) ∧
    (SetDictionary demoEngine demoV8
        [.string (unitsOf "en_US"), .arrayBufferView 7 [4, 5]] demoThat).that.dictData =
      some (.arrayBufferView 7 [4, 5]) :=
  ⟨rfl, rfl, by decide, rfl, rfl⟩

/-- C6, amended: each of `setDictionary`, `isMisspelled`, `checkSpelling`,
`add`, `remove` and `getCorrectionsForMisspelling` called with no argument,
every `checkSpelling` call whose first argument is not a string, and every
`setDictionary` call whose second argument is not an ArrayBufferView (neither
a Buffer nor another typed array or `DataView`) throws, makes no engine call
and leaves the object (engine and pinned buffer) unchanged. -/
theorem bad_arguments_throw {σ : Type} (E : SpellcheckerImplementation σ) (v8 : V8)
    (that : Spellchecker σ) (text language second : Value) (rest : List Value)
    (htext : text.IsString = false) (hsecond : second.IsArrayBufferView = false) :
    SetDictionary E v8 [] that = ⟨.error "Bad argument", that, []⟩ ∧
    IsMisspelled E v8 [] that = ⟨.error "Bad argument", that, []⟩ ∧
    CheckSpelling E [] that = ⟨.error "Bad argument", that, []⟩ ∧
    Add E v8 [] that = ⟨.error "Bad argument", that, []⟩ ∧
    Remove E v8 [] that = ⟨.error "Bad argument", that, []⟩ ∧
    GetCorrectionsForMisspelling E v8 [] that = ⟨.error "Bad argument", that, []⟩ ∧
    CheckSpelling E (text :: rest) that = ⟨.error "Bad argument", that, []⟩ ∧
    SetDictionary E v8 (language :: second :: rest) that =
      ⟨.error "SetDictionary 2nd argument must be a Buffer", that, []⟩ := by
  refine ⟨rfl, rfl, rfl, rfl, rfl, rfl, ?_, ?_⟩
  · simp [CheckSpelling, arg, htext, ThrowError]
  · simp [SetDictionary, arg, HasInstance, hsecond, ThrowError]

theorem bad_arguments_throw_witness :
    (Value.integer 5).IsString = false ∧
      (Value.string (unitsOf "aff")).IsArrayBufferView = false ∧
      CheckSpelling demoEngine [.integer 5] demoThat =
        ⟨.error "Bad argument", demoThat, []⟩ ∧
      SetDictionary demoEngine demoV8
          [.string (unitsOf "en_US"), .string (unitsOf "aff")] demoThat =
        ⟨.error "SetDictionary 2nd argument must be a Buffer", demoThat, []⟩ :=
  ⟨rfl, rfl,
    (bad_arguments_throw demoEngine demoV8 demoThat (.integer 5) (.string (unitsOf "en_US"))
      (.string (unitsOf "aff")) [] rfl rfl).2.2.2.2.2.2.1,
    (bad_arguments_throw demoEngine demoV8 demoThat (.integer 5) (.string (unitsOf "en_US"))
      (.string (unitsOf "aff")) [] rfl rfl).2.2.2.2.2.2.2⟩

/-! ## getCorrectionsForMisspelling -/

/-- C8: for every word argument `getCorrectionsForMisspelling` makes exactly
one engine call, the suggestion request for that word (no misspelling check
precedes it), and returns an array with one string per candidate, in the
engine's order; the array has the candidates' length, so no candidate gives
an empty array and no error. -/
theorem GetCorrectionsForMisspelling_delegates {σ : Type} (E : SpellcheckerImplementation σ)
    (v8 : V8) (that : Spellchecker σ) (word : Value) (rest : List Value) :
    (GetCorrectionsForMisspelling E v8 (word :: rest) that).calls =
        [.GetCorrectionsForMisspelling (v8.Utf8Value word)] ∧
      (GetCorrectionsForMisspelling E v8 (word :: rest) that).ret =
        .ok (.array ((E.GetCorrectionsForMisspelling that.impl (v8.Utf8Value word)).1.map
          (fun s => Value.string (v8.NewString s)))) ∧
      ((E.GetCorrectionsForMisspelling that.impl (v8.Utf8Value word)).1.map
          (fun s => Value.string (v8.NewString s))).length =
        (E.GetCorrectionsForMisspelling that.impl (v8.Utf8Value word)).1.length := by
  simp [GetCorrectionsForMisspelling, arg, setStrings_eq]

/-! ## Registration -/

/-- C9: `Init` registers exactly the seven methods, each name once and each
bound to the handler of the same operation, so a call by name runs that
handler. -/
theorem Init_registers_seven_methods :
    Init = [("setDictionary", Handler.SetDictionary),
        ("getAvailableDictionaries", Handler.GetAvailableDictionaries),
        ("getCorrectionsForMisspelling", Handler.GetCorrectionsForMisspelling),
        ("isMisspelled", Handler.IsMisspelled),
        ("checkSpelling", Handler.CheckSpelling),
        ("add", Handler.Add),
        ("remove", Handler.Remove)] ∧
      (Init.map Prod.fst).Nodup ∧
      Init.length = 7 ∧
      ∀ (σ : Type) (E : SpellcheckerImplementation σ) (v8 : V8),
        callMethod E v8 "setDictionary" = SetDictionary E v8 ∧
        callMethod E v8 "getAvailableDictionaries" = GetAvailableDictionaries E v8 ∧
        callMethod E v8 "getCorrectionsForMisspelling" = GetCorrectionsForMisspelling E v8 ∧
        callMethod E v8 "isMisspelled" = IsMisspelled E v8 ∧
        callMethod E v8 "checkSpelling" = (CheckSpelling E : _ → _ → Outcome σ) ∧
        callMethod E v8 "add" = Add E v8 ∧
        callMethod E v8 "remove" = Remove E v8 := by
  refine ⟨by decide, by decide, by decide, ?_⟩
  intro σ E v8
  exact ⟨rfl, rfl, rfl, rfl, rfl, rfl, rfl⟩

end NodeSpellchecker
